import Mathlib

/-!
Verification of the task persistence and state-transition model of the
`todo.rs` command-line task tracker, against its natural-language
specification.

The development shallowly embeds the core of `src/lib.rs`:

* `Task` with its two variants `DoneTask`/`TodoTask`, each carrying a
  `TaskData` record with a free-text `note`;
* serialization (`fmt::Debug`, here `Task.render`) and parsing
  (`impl FromStr for Task`, here `Task.from_str`, a direct translation of
  the regex `^- \[([\sx])\] (.*)$` together with the status dispatch in
  the source);
* `TodoList` with its file-backed mutate-then-persist protocol
  (`load`, `save`, `modify`, `add`, `check`, `undo`, `remove`, `cleanup`,
  `clear`, `print_unchecked`).

File I/O is embedded by making the backing file's content part of the
state: a `TodoList` here carries `file` (the current content of the file
at `path`; the `path` itself only names the file and is omitted) and
`saves`, a counter of how many times `save` has rewritten the file, so
that "no save was performed" is expressible.  `load` takes the disk state
at `path` as an `Option String` (`none` = the file does not exist;
`OpenOptions::create(true)` then creates it empty).  The buffered reader's
`lines()` iterator is embedded as `rust_lines`: it splits at `'\n'`,
strips a `'\r'` immediately preceding a `'\n'`, and consumes the final
line terminator (a last chunk without a terminator is yielded as-is).
`usize` arithmetic (`index - 1` on an index that may be `0`) is embedded
as wrapping subtraction modulo `2^64`.
-/

namespace TodoRs

/-- Width of `usize` on a 64-bit target: `2 ^ 64`. -/
def USIZE : Nat := 18446744073709551616

/-- Wrapping `usize` subtraction of `1`, as in `let i = index - 1;`. -/
def usizeSub1 (n : Nat) : Nat := (n + (USIZE - 1)) % USIZE

/-- Source: `struct TaskData { note: String }`. -/
structure TaskData where
  note : String
deriving DecidableEq

/-- Source: `enum Task { DoneTask(TaskData), TodoTask(TaskData) }`. -/
inductive Task where
  | DoneTask (data : TaskData)
  | TodoTask (data : TaskData)
deriving DecidableEq

/-- The note carried by a task (both variants carry one). -/
def Task.note : Task → String
  | .DoneTask d => d.note
  | .TodoTask d => d.note

/-- Source: `impl fmt::Debug for Task` — the persisted line form of a task. -/
def Task.render : Task → String
  | .DoneTask d => "- [x] " ++ d.note
  | .TodoTask d => "- [ ] " ++ d.note

/-- Source: `Task::new` — a fresh task starts in the `TodoTask` state. -/
def Task.new (note : String) : Task := .TodoTask ⟨note⟩

/-- Source: `Task::check` — `TodoTask → DoneTask`, identity on `DoneTask`. -/
def Task.check : Task → Task
  | .TodoTask d => .DoneTask d
  | .DoneTask d => .DoneTask d

/-- Source: `Task::undo` — `DoneTask → TodoTask`, identity on `TodoTask`. -/
def Task.undo : Task → Task
  | .DoneTask d => .TodoTask d
  | .TodoTask d => .TodoTask d

/-- Source: `struct TaskParseError;`. -/
inductive TaskParseError where
  | mk
deriving DecidableEq

/-- The character class `[\s]` of the `regex` crate with its default
Unicode semantics: the Unicode `White_Space` characters. -/
def rustRegexSpace (c : Char) : Bool :=
  ([0x9, 0xA, 0xB, 0xC, 0xD, 0x20, 0x85, 0xA0, 0x1680,
    0x2028, 0x2029, 0x202F, 0x205F, 0x3000] : List Nat).contains c.toNat
  || (0x2000 ≤ c.toNat && c.toNat ≤ 0x200A)

/-- Source: `impl FromStr for Task`, a direct translation of matching the line
against the anchored regex `^- \[([\sx])\] (.*)$` and then dispatching
on capture 1.  The regex matches exactly when the line is
`'-' ' ' '[' c ']' ' '` followed by a remainder free of `'\n'`
(`.` does not match `'\n'` and `$` anchors at the end of the haystack),
with `c` in `[\sx]`; capture 1 is `c`, capture 2 the remainder.  A match
whose status character is neither `"x"` nor `" "` (another whitespace
character) falls into the wildcard arm and yields `TaskParseError`, as
does any line the regex does not match. -/
def Task.from_str (s : String) : Except TaskParseError Task :=
  match s.data with
  | '-' :: ' ' :: '[' :: c :: ']' :: ' ' :: rest =>
    if (rustRegexSpace c || c == 'x') && rest.all (fun ch => ch != '\n') then
      let taskData : TaskData := { note := String.mk rest }
      if c == 'x' then Except.ok (Task.DoneTask taskData)
      else if c == ' ' then Except.ok (Task.TodoTask taskData)
      else Except.error ⟨⟩
    else Except.error ⟨⟩
  | _ => Except.error ⟨⟩

/-- Drop a leading `'\r'` from a reversed line accumulator, as
`BufRead::lines` drops a `'\r'` that immediately precedes a `'\n'`. -/
def stripTrailingCR (acc : List Char) : List Char :=
  match acc with
  | c :: t => if c = '\r' then t else c :: t
  | [] => []

/-- Worker for `rust_lines`: walks the content accumulating the current
line in reverse; at `'\n'` it emits the accumulated line (with a
trailing `'\r'` stripped) and restarts; at the end a non-empty unfinished
chunk is emitted as-is. -/
def linesAux : List Char → List Char → List String
  | [], acc => if acc.isEmpty then [] else [String.mk acc.reverse]
  | ch :: rest, acc =>
    if ch = '\n' then String.mk (stripTrailingCR acc).reverse :: linesAux rest []
    else linesAux rest (ch :: acc)

/-- Rust's `BufRead::lines` applied to the whole file content: each yielded line
has its terminating `'\n'` (and a `'\r'` before it) removed; the final
terminator yields no extra empty line, but a genuinely empty line (two
consecutive `'\n'`, or a file that is just `"\n"`) yields `""`. -/
def rust_lines (s : String) : List String := linesAux s.data []

/-- The parsing pipeline of `TodoList::load`:
`reader.lines().enumerate().map(|(i, l)| l.parse().expect(...)).collect()`.
The `expect` panic on the first unparsable line is embedded as an
`Except.error` carrying the panic message. -/
def parseLines : Nat → List String → Except String (List Task)
  | _, [] => Except.ok []
  | i, line :: rest =>
    match Task.from_str line with
    | Except.ok t => (parseLines (i + 1) rest).map (fun ts => t :: ts)
    | Except.error _ => Except.error ("Failed to parse line " ++ toString i)

/-- Source: `pub struct TodoList`, together with the observable state of its
backing file: `list` is the in-memory vector, `file` the current content
of the file at `path`, and `saves` counts the rewrites performed by
`save` (so claims about "no save performed" are expressible). -/
structure TodoList where
  list : List Task
  file : String
  saves : Nat
deriving DecidableEq

/-- The exact text `save` writes: `writeln!(file, "{:?}", l)` for each
task in order, i.e. each task's `render` form followed by `'\n'`. -/
def renderFile : List Task → String
  | [] => ""
  | t :: rest => Task.render t ++ "\n" ++ renderFile rest

/-- Source: `TodoList::load`; opens the file with
`read(true).write(true).create(true)`, so a missing file is created
empty rather than reported as an error; then parses every line yielded
by the buffered reader, aborting with `Failed to parse line {i}` on the
first line that does not parse. -/
def TodoList.load (disk : Option String) : Except String TodoList :=
  let content := match disk with
    | none => ""
    | some c => c
  (parseLines 0 (rust_lines content)).map
    (fun l => { list := l, file := content, saves := 0 })

/-- Source: `TodoList::save`; truncates and rewrites the whole backing file from
the in-memory list. -/
def TodoList.save (st : TodoList) : TodoList :=
  { st with file := renderFile st.list, saves := st.saves + 1 }

/-- Source: `TodoList::modify`; apply an action to the list, then `save`. -/
def TodoList.modify (action : List Task → List Task) (st : TodoList) : TodoList :=
  TodoList.save { st with list := action st.list }

/-- Source: `TodoList::add`; push a fresh `Todo` task, then save (via `modify`). -/
def TodoList.add (note : String) (st : TodoList) : TodoList :=
  TodoList.modify (fun l => l ++ [Task.new note]) st

/-- Source: `fn vec_try_remove<T>(v: &mut Vec<T>, index: usize) -> Option<T>`;
if `index < v.len()`, remove and return the element at `index`
(here: return the element together with the vector after removal);
otherwise `None`. -/
def vec_try_remove (l : List Task) (i : Nat) : Option (Task × List Task) :=
  if h : i < l.length then some (l.get ⟨i, h⟩, l.take i ++ l.drop (i + 1))
  else none

/-- Rust's `Vec::insert` at position `i`. -/
def vecInsert (l : List Task) (i : Nat) (a : Task) : List Task :=
  l.take i ++ a :: l.drop i

/-- Source: `TodoList::check`; `let i = index - 1;` (wrapping `usize`
subtraction), then, if `vec_try_remove` yields the task at `i`, reinsert
its `check`ed form at `i` and save (via `modify`); otherwise nothing
happens — no save. -/
def TodoList.check (index : Nat) (st : TodoList) : TodoList :=
  let i := usizeSub1 index
  match vec_try_remove st.list i with
  | some (t, rest) => TodoList.modify (fun l => vecInsert l i (Task.check t)) { st with list := rest }
  | none => st

/-- Source: `TodoList::undo`; symmetric to `check`, using `Task.undo`. -/
def TodoList.undo (index : Nat) (st : TodoList) : TodoList :=
  let i := usizeSub1 index
  match vec_try_remove st.list i with
  | some (t, rest) => TodoList.modify (fun l => vecInsert l i (Task.undo t)) { st with list := rest }
  | none => st

/-- Source: `TodoList::remove`; if `vec_try_remove` removed the task at
`index - 1`, save; otherwise nothing happens. -/
def TodoList.remove (index : Nat) (st : TodoList) : TodoList :=
  let i := usizeSub1 index
  match vec_try_remove st.list i with
  | some (_, rest) => TodoList.save { st with list := rest }
  | none => st

/-- The retain/filter predicate used by `cleanup` and `print_unchecked`:
`match task { Task::TodoTask(_) => true, _ => false }`. -/
def isTodoTask : Task → Bool
  | .TodoTask _ => true
  | .DoneTask _ => false

/-- Source: `TodoList::cleanup`; retain only `TodoTask`s (in order), then save
(via `modify`, so a save happens unconditionally). -/
def TodoList.cleanup (st : TodoList) : TodoList :=
  TodoList.modify (fun l => l.filter isTodoTask) st

/-- Source: `TodoList::clear`; empty the list, then save (via `modify`). -/
def TodoList.clear (st : TodoList) : TodoList :=
  TodoList.modify (fun _ => []) st

/-- Source: `fn filter_print_lines`; enumerate first, filter second, and print
`" {i+1}. {t}"` for each surviving pair.  The printed stream is embedded
as the list of pairs (1-based display index, task); the ANSI styling and
glyph rendering of the terminal display form carry no further
information. -/
def filter_print_lines (l : List Task) (f : Task → Bool) : List (Nat × Task) :=
  ((l.enum).filter (fun p => f p.2)).map (fun p => (p.1 + 1, p.2))

/-- Source: `TodoList::print_unchecked`; print only `TodoTask`s. -/
def TodoList.print_unchecked (st : TodoList) : List (Nat × Task) :=
  filter_print_lines st.list isTodoTask

/-- Source: `TodoList::print_all`; print every task. -/
def TodoList.print_all (st : TodoList) : List (Nat × Task) :=
  filter_print_lines st.list (fun _ => true)

/-- Success of an `Except` value as a Boolean observation. -/
def exceptOk {ε α : Type} : Except ε α → Bool
  | .ok _ => true
  | .error _ => false

/-- A string free of line breaks (`'\n'`), stated exactly as the guard
of the parsing regex states it. -/
def noLF (s : String) : Bool := s.data.all (fun ch => ch != '\n')

/-- A string whose last character is `'\r'` (such a character is eaten
by `BufRead::lines` when the line is written out followed by `'\n'`). -/
def endsWithCR (s : String) : Bool :=
  match s.data.reverse with
  | c :: _ => c == '\r'
  | [] => false

/-! ## General helper lemmas -/

theorem str_data_append (a b : String) : (a ++ b).data = a.data ++ b.data := by
  cases a; cases b; rfl

theorem str_mk_data (s : String) : String.mk s.data = s := by
  cases s; rfl

theorem exceptOk_map {ε α β : Type} (f : α → β) (x : Except ε α) :
    exceptOk (x.map f) = exceptOk x := by
  cases x <;> rfl

/-! ## C2: loading a missing file -/

/-- C2.  `TodoList::load` on a missing file (`disk = none`) does not
error: the file is created (empty content on disk) and the returned
`TodoList` has an empty in-memory list. -/
theorem load_missing_file_creates_empty :
    TodoList.load none = Except.ok { list := [], file := "", saves := 0 } := rfl

/-! ## C1: out-of-range indices are silent no-ops -/

/-- C1.  On a list of length `N` (with `N + 1` representable in `usize`),
`check 0`, `check (N+1)`, `undo 0`, `undo (N+1)`, `remove 0` and
`remove (N+1)` each leave the whole state unchanged: the in-memory list,
the backing file content, and the save counter (so no save is
performed), and none of them produces an error (each is a total
function returning the unchanged state). -/
theorem out_of_range_silent_noop (st : TodoList) (h : st.list.length + 1 < USIZE) :
    TodoList.check 0 st = st ∧ TodoList.check (st.list.length + 1) st = st ∧
    TodoList.undo 0 st = st ∧ TodoList.undo (st.list.length + 1) st = st ∧
    TodoList.remove 0 st = st ∧ TodoList.remove (st.list.length + 1) st = st := by
  have h0 : ¬ usizeSub1 0 < st.list.length := by
    simp only [usizeSub1, USIZE] at *
    omega
  have h1 : ¬ usizeSub1 (st.list.length + 1) < st.list.length := by
    simp only [usizeSub1, USIZE] at *
    omega
  refine ⟨?_, ?_, ?_, ?_, ?_, ?_⟩ <;>
    simp [TodoList.check, TodoList.undo, TodoList.remove, vec_try_remove, h0, h1]

/-- Witness for C1 at the concrete one-element state
`{ list := [DoneTask "b"], file := "- [x] b\n", saves := 0 }`. -/
theorem out_of_range_silent_noop_witness :
    ([Task.DoneTask ⟨"b"⟩] : List Task).length + 1 < USIZE ∧
    (TodoList.check 0 { list := [Task.DoneTask ⟨"b"⟩], file := "- [x] b\n", saves := 0 } =
        { list := [Task.DoneTask ⟨"b"⟩], file := "- [x] b\n", saves := 0 } ∧
      TodoList.check 2 { list := [Task.DoneTask ⟨"b"⟩], file := "- [x] b\n", saves := 0 } =
        { list := [Task.DoneTask ⟨"b"⟩], file := "- [x] b\n", saves := 0 } ∧
      TodoList.undo 0 { list := [Task.DoneTask ⟨"b"⟩], file := "- [x] b\n", saves := 0 } =
        { list := [Task.DoneTask ⟨"b"⟩], file := "- [x] b\n", saves := 0 } ∧
      TodoList.undo 2 { list := [Task.DoneTask ⟨"b"⟩], file := "- [x] b\n", saves := 0 } =
        { list := [Task.DoneTask ⟨"b"⟩], file := "- [x] b\n", saves := 0 } ∧
      TodoList.remove 0 { list := [Task.DoneTask ⟨"b"⟩], file := "- [x] b\n", saves := 0 } =
        { list := [Task.DoneTask ⟨"b"⟩], file := "- [x] b\n", saves := 0 } ∧
      TodoList.remove 2 { list := [Task.DoneTask ⟨"b"⟩], file := "- [x] b\n", saves := 0 } =
        { list := [Task.DoneTask ⟨"b"⟩], file := "- [x] b\n", saves := 0 }) :=
  ⟨by decide,
    out_of_range_silent_noop
      { list := [Task.DoneTask ⟨"b"⟩], file := "- [x] b\n", saves := 0 } (by decide)⟩

/-! ## C3: every mutating operation keeps the file in sync -/

/-- C3.  If the backing file is in sync with the in-memory list, then
after any of the mutating operations (`add`, `check`, `undo`, `remove`,
`cleanup`, `clear`) the file again holds exactly one line per task —
each task's `render` form followed by a line break — in list order
(`renderFile` is that whole-file rewrite). -/
theorem mutating_ops_keep_file_in_sync (st : TodoList) (note : String) (index : Nat)
    (h : st.file = renderFile st.list) :
    (TodoList.add note st).file = renderFile (TodoList.add note st).list ∧
    (TodoList.check index st).file = renderFile (TodoList.check index st).list ∧
    (TodoList.undo index st).file = renderFile (TodoList.undo index st).list ∧
    (TodoList.remove index st).file = renderFile (TodoList.remove index st).list ∧
    (TodoList.cleanup st).file = renderFile (TodoList.cleanup st).list ∧
    (TodoList.clear st).file = renderFile (TodoList.clear st).list := by
  refine ⟨rfl, ?_, ?_, ?_, rfl, rfl⟩ <;> {
    first
      | (simp only [TodoList.check]
         cases hv : vec_try_remove st.list (usizeSub1 index) with
         | none => simpa [hv] using h
         | some pair => obtain ⟨t, rest⟩ := pair; simp [hv, TodoList.modify, TodoList.save])
      | (simp only [TodoList.undo]
         cases hv : vec_try_remove st.list (usizeSub1 index) with
         | none => simpa [hv] using h
         | some pair => obtain ⟨t, rest⟩ := pair; simp [hv, TodoList.modify, TodoList.save])
      | (simp only [TodoList.remove]
         cases hv : vec_try_remove st.list (usizeSub1 index) with
         | none => simpa [hv] using h
         | some pair => obtain ⟨t, rest⟩ := pair; simp [hv, TodoList.save]) }

/-- Witness for C3 at a concrete in-sync state. -/
theorem mutating_ops_keep_file_in_sync_witness :
    (TodoList.file { list := [Task.TodoTask ⟨"a"⟩], file := "- [ ] a\n", saves := 0 } =
        renderFile (TodoList.list { list := [Task.TodoTask ⟨"a"⟩], file := "- [ ] a\n", saves := 0 })) ∧
    ((TodoList.add ("b") { list := [Task.TodoTask ⟨"a"⟩], file := "- [ ] a\n", saves := 0 }).file =
        renderFile (TodoList.add ("b") { list := [Task.TodoTask ⟨"a"⟩], file := "- [ ] a\n", saves := 0 }).list ∧
      (TodoList.check 1 { list := [Task.TodoTask ⟨"a"⟩], file := "- [ ] a\n", saves := 0 }).file =
        renderFile (TodoList.check 1 { list := [Task.TodoTask ⟨"a"⟩], file := "- [ ] a\n", saves := 0 }).list ∧
      (TodoList.undo 1 { list := [Task.TodoTask ⟨"a"⟩], file := "- [ ] a\n", saves := 0 }).file =
        renderFile (TodoList.undo 1 { list := [Task.TodoTask ⟨"a"⟩], file := "- [ ] a\n", saves := 0 }).list ∧
      (TodoList.remove 1 { list := [Task.TodoTask ⟨"a"⟩], file := "- [ ] a\n", saves := 0 }).file =
        renderFile (TodoList.remove 1 { list := [Task.TodoTask ⟨"a"⟩], file := "- [ ] a\n", saves := 0 }).list ∧
      (TodoList.cleanup { list := [Task.TodoTask ⟨"a"⟩], file := "- [ ] a\n", saves := 0 }).file =
        renderFile (TodoList.cleanup { list := [Task.TodoTask ⟨"a"⟩], file := "- [ ] a\n", saves := 0 }).list ∧
      (TodoList.clear { list := [Task.TodoTask ⟨"a"⟩], file := "- [ ] a\n", saves := 0 }).file =
        renderFile (TodoList.clear { list := [Task.TodoTask ⟨"a"⟩], file := "- [ ] a\n", saves := 0 }).list) :=
  ⟨by decide,
    mutating_ops_keep_file_in_sync
      { list := [Task.TodoTask ⟨"a"⟩], file := "- [ ] a\n", saves := 0 } ("b") 1 (by decide)⟩

/-! ## C6: cleanup removes exactly the Done tasks, in order, and saves -/

/-- C6.  `cleanup` keeps exactly the `TodoTask`s: the resulting list is
the order-preserving filter of the original (hence a sublist of it, and
every surviving task is a `TodoTask`); a save happens unconditionally
(the save counter increments even when nothing was removed); and on the
concrete list `[Todo "a", Done "b", Todo "c", Done "d"]` the result is
`[Todo "a", Todo "c"]`. -/
theorem cleanup_removes_exactly_done (st : TodoList) :
    (TodoList.cleanup st).list = st.list.filter isTodoTask ∧
    List.Sublist (TodoList.cleanup st).list st.list ∧
    (∀ t ∈ (TodoList.cleanup st).list, isTodoTask t = true) ∧
    (TodoList.cleanup st).saves = st.saves + 1 ∧
    (TodoList.cleanup st).file = renderFile (st.list.filter isTodoTask) ∧
    TodoList.cleanup
        { list := [Task.TodoTask ⟨"a"⟩, Task.DoneTask ⟨"b"⟩,
                   Task.TodoTask ⟨"c"⟩, Task.DoneTask ⟨"d"⟩],
          file := "", saves := 0 } =
      { list := [Task.TodoTask ⟨"a"⟩, Task.TodoTask ⟨"c"⟩],
        file := "- [ ] a\n- [ ] c\n", saves := 1 } := by
  refine ⟨rfl, ?_, ?_, rfl, rfl, rfl⟩
  · exact List.filter_sublist st.list
  · intro t ht
    exact (List.mem_filter.mp ht).2

/-! ## C9: cleanup is idempotent -/

/-- C9.  Applying `cleanup` twice yields the same in-memory list and the
same file content as applying it once. -/
theorem cleanup_idempotent (st : TodoList) :
    (TodoList.cleanup (TodoList.cleanup st)).list = (TodoList.cleanup st).list ∧
    (TodoList.cleanup (TodoList.cleanup st)).file = (TodoList.cleanup st).file := by
  constructor <;>
    simp [TodoList.cleanup, TodoList.modify, TodoList.save, List.filter_filter]

/-! ## C7: print_unchecked uses full-list 1-based indices -/

theorem enumFrom_filter_map_snd (f : Task → Bool) :
    ∀ (n : Nat) (l : List Task),
      ((List.enumFrom n l).filter (fun p => f p.2)).map Prod.snd = l.filter f
  | _, [] => rfl
  | n, t :: rest => by
    cases hf : f t <;>
      simp [List.enumFrom, List.filter_cons, hf,
        enumFrom_filter_map_snd f (n + 1) rest]

theorem mem_enumFrom_get (l : List Task) :
    ∀ (n : Nat) (p : Nat × Task), p ∈ List.enumFrom n l →
      n ≤ p.1 ∧ l.get? (p.1 - n) = some p.2 := by
  induction l with
  | nil =>
    intro n p hp
    simp [List.enumFrom] at hp
  | cons t rest ih =>
    intro n p hp
    simp only [List.enumFrom, List.mem_cons] at hp
    rcases hp with h | h
    · subst h
      simp
    · obtain ⟨h1, h2⟩ := ih (n + 1) p h
      refine ⟨by omega, ?_⟩
      have hidx : p.1 - n = (p.1 - (n + 1)) + 1 := by omega
      rw [hidx]
      simpa using h2

/-- C7.  The lines printed by `print_unchecked` are exactly the
`TodoTask`s in list order, and each printed pair carries the 1-based
position of that task within the **full** list (`enumerate` runs before
`filter`, so indices are not renumbered after filtering); on
`[Todo "a", Done "b", Todo "c"]` the task `"c"` is shown at display
index `3`. -/
theorem print_unchecked_full_list_indices (st : TodoList) :
    ((TodoList.print_unchecked st).map Prod.snd = st.list.filter isTodoTask) ∧
    (∀ p ∈ TodoList.print_unchecked st,
        1 ≤ p.1 ∧ st.list.get? (p.1 - 1) = some p.2 ∧ isTodoTask p.2 = true) ∧
    TodoList.print_unchecked
        { list := [Task.TodoTask ⟨"a"⟩, Task.DoneTask ⟨"b"⟩, Task.TodoTask ⟨"c"⟩],
          file := "", saves := 0 } =
      [(1, Task.TodoTask ⟨"a"⟩), (3, Task.TodoTask ⟨"c"⟩)] := by
  refine ⟨?_, ?_, rfl⟩
  · have hmain := enumFrom_filter_map_snd isTodoTask 0 st.list
    simpa [TodoList.print_unchecked, filter_print_lines, List.map_map,
      List.enum, Function.comp] using hmain
  · intro p hp
    simp only [TodoList.print_unchecked, filter_print_lines, List.mem_map] at hp
    obtain ⟨q, hq, rfl⟩ := hp
    have hq' := List.mem_filter.mp hq
    have hmem := mem_enumFrom_get st.list 0 q (by simpa [List.enum] using hq'.1)
    refine ⟨by omega, ?_, by simpa using hq'.2⟩
    simpa using hmem.2

/-! ## Parsing lemmas shared by C4, C8, C10 -/

/-- Reduction of `Task.from_str` on a string of the matched shape. -/
theorem from_str_cons (c : Char) (rest : List Char) :
    Task.from_str (String.mk ('-' :: ' ' :: '[' :: c :: ']' :: ' ' :: rest)) =
      (if (rustRegexSpace c || c == 'x') && rest.all (fun ch => ch != '\n') then
        if c == 'x' then Except.ok (Task.DoneTask ⟨String.mk rest⟩)
        else if c == ' ' then Except.ok (Task.TodoTask ⟨String.mk rest⟩)
        else Except.error ⟨⟩
      else Except.error ⟨⟩) := rfl

theorem render_done_data (cs : List Char) :
    (Task.render (Task.DoneTask ⟨String.mk cs⟩)).data =
      '-' :: ' ' :: '[' :: 'x' :: ']' :: ' ' :: cs := rfl

theorem render_todo_data (cs : List Char) :
    (Task.render (Task.TodoTask ⟨String.mk cs⟩)).data =
      '-' :: ' ' :: '[' :: ' ' :: ']' :: ' ' :: cs := rfl

/-- Rendering then parsing restores the task, provided the note is free
of line breaks. -/
theorem from_str_render_ok (t : Task) (h : noLF t.note = true) :
    Task.from_str (Task.render t) = Except.ok t := by
  cases t with
  | DoneTask d =>
    obtain ⟨note⟩ := d
    obtain ⟨cs⟩ := note
    simp only [Task.note, noLF] at h
    have hs : Task.render (Task.DoneTask ⟨String.mk cs⟩) =
        String.mk ('-' :: ' ' :: '[' :: 'x' :: ']' :: ' ' :: cs) := by
      have := render_done_data cs
      cases hr : Task.render (Task.DoneTask ⟨String.mk cs⟩)
      simp_all
    rw [hs, from_str_cons]
    simp [h]
  | TodoTask d =>
    obtain ⟨note⟩ := d
    obtain ⟨cs⟩ := note
    simp only [Task.note, noLF] at h
    have hs : Task.render (Task.TodoTask ⟨String.mk cs⟩) =
        String.mk ('-' :: ' ' :: '[' :: ' ' :: ']' :: ' ' :: cs) := by
      have := render_todo_data cs
      cases hr : Task.render (Task.TodoTask ⟨String.mk cs⟩)
      simp_all
    rw [hs, from_str_cons]
    simp [h, rustRegexSpace]

/-! ## C4: round-trip law -/

/-- C4.  For every task (either status, any note without a line break),
parsing its rendered line yields the task back, where the rendered line
is `"- [x] <note>"` for `DoneTask` and `"- [ ] <note>"` for
`TodoTask`. -/
theorem parse_render_roundtrip (t : Task) (h : noLF t.note = true) :
    Task.from_str (Task.render t) = Except.ok t ∧
    Task.render t = (match t with
      | Task.DoneTask d => "- [x] " ++ d.note
      | Task.TodoTask d => "- [ ] " ++ d.note) :=
  ⟨from_str_render_ok t h, by cases t <;> rfl⟩

/-- Witness for C4 at the concrete task `DoneTask "hi"`. -/
theorem parse_render_roundtrip_witness :
    noLF (Task.note (Task.DoneTask ⟨"hi"⟩)) = true ∧
    (Task.from_str (Task.render (Task.DoneTask ⟨"hi"⟩)) =
        Except.ok (Task.DoneTask ⟨"hi"⟩) ∧
      Task.render (Task.DoneTask ⟨"hi"⟩) = "- [x] " ++ "hi") :=
  ⟨by decide, parse_render_roundtrip (Task.DoneTask ⟨"hi"⟩) (by decide)⟩

/-! ## C8: the parser accepts exactly the task grammar -/

/-- C8.  `Task.from_str` succeeds on exactly the lines of the grammar
`"- [" STATUS "] " NOTE` with `STATUS` `'x'` (→ `DoneTask`) or `' '`
(→ `TodoTask`) and `NOTE` the verbatim, possibly empty, `'\n'`-free
remainder: parsing yields `Except.ok t` precisely when the line is
`t`'s rendered form; and every failure is the plain `TaskParseError`
value (the parser is a total function into `Except TaskParseError Task`,
so it cannot abort any other way). -/
theorem from_str_exact (s : String) (t : Task) :
    (Task.from_str s = Except.ok t ↔ noLF t.note = true ∧ s = Task.render t) ∧
    (∀ e, Task.from_str s = Except.error e → e = TaskParseError.mk) := by
  constructor
  · constructor
    · intro h
      unfold Task.from_str at h
      split at h
      next c rest heq =>
        split at h
        next hguard =>
          rw [Bool.and_eq_true] at hguard
          by_cases hx : c == 'x'
          · rw [if_pos hx] at h
            injection h with h'
            subst h'
            have hc : c = 'x' := by simpa using hx
            subst hc
            refine ⟨by simpa [Task.note, noLF] using hguard.2, ?_⟩
            have hd : s.data = (Task.render (Task.DoneTask ⟨String.mk rest⟩)).data := by
              rw [heq, render_done_data]
            have := congrArg String.mk hd
            rwa [str_mk_data, str_mk_data] at this
          · rw [if_neg hx] at h
            by_cases hsp : c == ' '
            · rw [if_pos hsp] at h
              injection h with h'
              subst h'
              have hc : c = ' ' := by simpa using hsp
              subst hc
              refine ⟨by simpa [Task.note, noLF] using hguard.2, ?_⟩
              have hd : s.data = (Task.render (Task.TodoTask ⟨String.mk rest⟩)).data := by
                rw [heq, render_todo_data]
              have := congrArg String.mk hd
              rwa [str_mk_data, str_mk_data] at this
            · rw [if_neg hsp] at h
              exact absurd h (by simp)
        next hguard => exact absurd h (by simp)
      next => exact absurd h (by simp)
    · rintro ⟨hn, rfl⟩
      exact from_str_render_ok t hn
  · intro e _
    cases e
    rfl

/-! ## Line-splitting lemmas for C5 and C10 -/

theorem linesAux_no_newline (cs : List Char) (h : ∀ c ∈ cs, c ≠ '\n') :
    ∀ (ds acc : List Char), linesAux (cs ++ ds) acc = linesAux ds (cs.reverse ++ acc) := by
  induction cs with
  | nil =>
    intro ds acc
    simp
  | cons c cs ih =>
    intro ds acc
    have hc : c ≠ '\n' := h c (List.mem_cons_self c cs)
    have ih' := ih (fun x hx => h x (List.mem_cons_of_mem c hx)) ds (c :: acc)
    simp only [List.cons_append, linesAux, if_neg hc, List.append_eq]
    rw [ih']
    simp

theorem rust_lines_line (cs : List Char) (h : ∀ c ∈ cs, c ≠ '\n')
    (h2 : stripTrailingCR cs.reverse = cs.reverse) (ds : List Char) :
    linesAux (cs ++ '\n' :: ds) [] = String.mk cs :: linesAux ds [] := by
  rw [linesAux_no_newline cs h ('\n' :: ds) []]
  simp only [linesAux, if_pos rfl, List.append_nil]
  rw [h2]
  simp

/-- A rendered task line contains no `'\n'` when its note does not. -/
theorem render_no_newline (t : Task) (h : noLF t.note = true) :
    ∀ c ∈ (Task.render t).data, c ≠ '\n' := by
  cases t with
  | DoneTask d =>
    obtain ⟨note⟩ := d
    obtain ⟨cs⟩ := note
    simp only [Task.note, noLF] at h
    rw [render_done_data]
    intro c hc
    simp only [List.mem_cons] at hc
    rcases hc with rfl | rfl | rfl | rfl | rfl | rfl | hc
    · decide
    · decide
    · decide
    · decide
    · decide
    · decide
    · simpa using List.all_eq_true.mp h c hc
  | TodoTask d =>
    obtain ⟨note⟩ := d
    obtain ⟨cs⟩ := note
    simp only [Task.note, noLF] at h
    rw [render_todo_data]
    intro c hc
    simp only [List.mem_cons] at hc
    rcases hc with rfl | rfl | rfl | rfl | rfl | rfl | hc
    · decide
    · decide
    · decide
    · decide
    · decide
    · decide
    · simpa using List.all_eq_true.mp h c hc

/-- A rendered task line does not end in `'\r'` when its note does not,
so the buffered reader strips nothing from it. -/
theorem render_strip (t : Task) (h : endsWithCR t.note = false) :
    stripTrailingCR (Task.render t).data.reverse = (Task.render t).data.reverse := by
  cases t with
  | DoneTask d =>
    obtain ⟨note⟩ := d
    obtain ⟨cs⟩ := note
    simp only [Task.note, endsWithCR] at h
    rw [render_done_data]
    cases hrev : cs.reverse with
    | nil =>
      have hnil : cs = [] := by
        have := congrArg List.reverse hrev
        simpa using this
      subst hnil
      decide
    | cons r rs =>
      rw [hrev] at h
      have hrev2 : ('-' :: ' ' :: '[' :: 'x' :: ']' :: ' ' :: cs).reverse
          = r :: (rs ++ [' ', ']', 'x', '[', ' ', '-']) := by
        simp [hrev]
      rw [hrev2]
      simp only [stripTrailingCR]
      rw [if_neg]
      intro hh
      rw [hh] at h
      simp at h
  | TodoTask d =>
    obtain ⟨note⟩ := d
    obtain ⟨cs⟩ := note
    simp only [Task.note, endsWithCR] at h
    rw [render_todo_data]
    cases hrev : cs.reverse with
    | nil =>
      have hnil : cs = [] := by
        have := congrArg List.reverse hrev
        simpa using this
      subst hnil
      decide
    | cons r rs =>
      rw [hrev] at h
      have hrev2 : ('-' :: ' ' :: '[' :: ' ' :: ']' :: ' ' :: cs).reverse
          = r :: (rs ++ [' ', ']', ' ', '[', ' ', '-']) := by
        simp [hrev]
      rw [hrev2]
      simp only [stripTrailingCR]
      rw [if_neg]
      intro hh
      rw [hh] at h
      simp at h

/-- Reading back the exact text `save` writes splits into the rendered
lines, one per task, provided notes are `'\n'`-free and do not end in
`'\r'`. -/
theorem rust_lines_renderFile : ∀ (l : List Task),
    (∀ t ∈ l, noLF t.note = true ∧ endsWithCR t.note = false) →
    rust_lines (renderFile l) = l.map Task.render
  | [], _ => rfl
  | t :: rest, h => by
    have ht := h t (List.mem_cons_self t rest)
    simp only [rust_lines, renderFile, List.map_cons]
    rw [show (Task.render t ++ "\n" ++ renderFile rest).data
        = (Task.render t).data ++ '\n' :: (renderFile rest).data from by
      rw [str_data_append, str_data_append, List.append_assoc]
      rfl]
    rw [rust_lines_line (Task.render t).data (render_no_newline t ht.1)
      (render_strip t ht.2) (renderFile rest).data]
    rw [str_mk_data]
    show Task.render t :: rust_lines (renderFile rest) = _
    rw [rust_lines_renderFile rest (fun x hx => h x (List.mem_cons_of_mem t hx))]

/-- Parsing the rendered lines of a list of `'\n'`-free-note tasks
recovers the list, from any starting line number. -/
theorem parseLines_map_render : ∀ (l : List Task),
    (∀ t ∈ l, noLF t.note = true) →
    ∀ i : Nat, parseLines i (l.map Task.render) = Except.ok l
  | [], _, _ => rfl
  | t :: rest, hl, i => by
    have h1 := from_str_render_ok t (hl t (List.mem_cons_self t rest))
    have h2 := parseLines_map_render rest
      (fun x hx => hl x (List.mem_cons_of_mem t hx)) (i + 1)
    simp [parseLines, h1, h2, Except.map]

/-! ## C5: blank lines are fatal, only the final terminator is ignored -/

/-- Counterexample to C5 as stated: a file whose content is a single
blank line (`"\n"`) makes `load` abort with a parse failure at line 0,
instead of ignoring the blank line. -/
theorem blank_line_is_fatal :
    TodoList.load (some ("\n")) = Except.error ("Failed to parse line 0") := rfl

/-- C5 amended.  `load` succeeds exactly when every line yielded by the
buffered reader parses; the reader consumes the final line terminator
(so `"- [ ] a\n"` loads fine), but an empty line — e.g. a second
trailing line break — is yielded as `""`, does not match the grammar,
and is fatal, like any other non-matching line. -/
theorem load_ok_iff_lines_parse (content : String) :
    (exceptOk (TodoList.load (some content)) = true ↔
      ∀ line ∈ rust_lines content, exceptOk (Task.from_str line) = true) ∧
    TodoList.load (some ("- [ ] a\n")) =
      Except.ok { list := [Task.TodoTask ⟨"a"⟩], file := "- [ ] a\n", saves := 0 } ∧
    exceptOk (TodoList.load (some ("- [ ] a\n\n"))) = false := by
  refine ⟨?_, rfl, rfl⟩
  have main : ∀ (ls : List String) (i : Nat),
      (exceptOk (parseLines i ls) = true ↔
        ∀ s ∈ ls, exceptOk (Task.from_str s) = true) := by
    intro ls
    induction ls with
    | nil =>
      intro i
      simp [parseLines, exceptOk]
    | cons s rest ih =>
      intro i
      cases hs : Task.from_str s with
      | ok t =>
        simp only [parseLines, hs]
        rw [exceptOk_map, ih (i + 1)]
        simp [List.forall_mem_cons, hs, exceptOk]
      | error e =>
        simp [parseLines, hs, List.forall_mem_cons, exceptOk]
  simp only [TodoList.load]
  rw [exceptOk_map]
  exact main (rust_lines content) 0

/-! ## C10: save/load round-trip -/

/-- Counterexample to C10 as stated: the note `"a\r"` contains no line
break (`'\n'`), yet saving `[TodoTask "a\r"]` and loading the written
text back yields `[TodoTask "a"]` — the buffered reader eats the `'\r'`
that ends up directly before the written `'\n'` — so persistence is not
lossless for all newline-free notes. -/
theorem save_load_not_lossless_cr :
    noLF ("a\r") = true ∧
    TodoList.load (some (renderFile [Task.TodoTask ⟨"a\r"⟩])) =
      Except.ok { list := [Task.TodoTask ⟨"a"⟩], file := "- [ ] a\r\n", saves := 0 } ∧
    (Task.TodoTask ⟨"a"⟩ : Task) ≠ Task.TodoTask ⟨"a\r"⟩ :=
  ⟨by decide, rfl, by decide⟩

/-- C10 amended.  For every task list whose notes contain no `'\n'` and
do not end in `'\r'`, loading the exact text that `save` writes
reconstructs the list, task for task, in order. -/
theorem save_load_roundtrip (l : List Task)
    (h : ∀ t ∈ l, noLF t.note = true ∧ endsWithCR t.note = false) :
    TodoList.load (some (renderFile l)) =
      Except.ok { list := l, file := renderFile l, saves := 0 } := by
  simp only [TodoList.load]
  rw [rust_lines_renderFile l h, parseLines_map_render l (fun t ht => (h t ht).1) 0]
  rfl

/-- Witness for the amended C10 at a concrete two-task list covering
both statuses. -/
theorem save_load_roundtrip_witness :
    (∀ t ∈ [Task.DoneTask ⟨"hi"⟩, Task.TodoTask ⟨""⟩],
        noLF (Task.note t) = true ∧ endsWithCR (Task.note t) = false) ∧
    TodoList.load (some (renderFile [Task.DoneTask ⟨"hi"⟩, Task.TodoTask ⟨""⟩])) =
      Except.ok
        { list := [Task.DoneTask ⟨"hi"⟩, Task.TodoTask ⟨""⟩],
          file := renderFile [Task.DoneTask ⟨"hi"⟩, Task.TodoTask ⟨""⟩],
          saves := 0 } :=
  ⟨by decide, save_load_roundtrip [Task.DoneTask ⟨"hi"⟩, Task.TodoTask ⟨""⟩] (by decide)⟩

end TodoRs
